import Mathlib

/-!
Shallow embedding of the LlmFlow core (src/src/core.rs): the `Node`
structure, its validating constructor and builder methods, and the
retry-driven execution loop `exec`.  Machine integers (`u8` fields and
counters) are modelled as `Nat`; all guards in the source compare against
the constants `MAX_RETRIES = 10` and `MAX_WAIT_SECONDS = 60`, so no
wrap-around is reachable.  Fallible operations return `Except NodeError`.
The `Arc<Node>` successor reference is modelled by the referenced `Node`
value itself (the core never mutates a successor after attachment).
-/

/-- The constant `const MAX_RETRIES: u8 = 10;`. -/
def MAX_RETRIES : Nat := 10

/-- The constant `const MAX_WAIT_SECONDS: u8 = 60;`. -/
def MAX_WAIT_SECONDS : Nat := 60

/-- The `Node` struct: `name`, optional successor `next`, `max_retries`,
`wait`.  Recursive because `next` holds (a shared reference to) another
`Node`. -/
inductive Node : Type where
  | mk (name : String) (next : Option Node) (max_retries : Nat) (wait : Nat)

/-- Field accessor for `name`. -/
def Node.name : Node → String
  | .mk n _ _ _ => n

/-- Field accessor for `next`. -/
def Node.nextField : Node → Option Node
  | .mk _ nx _ _ => nx

/-- Field accessor for `max_retries`. -/
def Node.max_retries : Node → Nat
  | .mk _ _ r _ => r

/-- Field accessor for `wait`. -/
def Node.wait : Node → Nat
  | .mk _ _ _ w => w

/-- The `NodeError` enum. -/
inductive NodeError : Type where
  | executionError (detail : String)
  | invalidRetryCount (given max : Nat)
  | invalidWaitTime (given max : Nat)
  | emptyNodeName
  | retryLimitExceeded (attempts : Nat) (message : String)
deriving DecidableEq

/-- The `Display` rendering of `NodeError` generated by the `#[error]`
attributes (`e.to_string()` in the source). -/
def NodeError.toMessage : NodeError → String
  | .executionError d => "Node execution failed: " ++ d
  | .invalidRetryCount g m =>
      "Invalid retry count: " ++ toString g ++ ". Maximum allowed retries is "
        ++ toString m
  | .invalidWaitTime g m =>
      "Invalid wait time: " ++ toString g
        ++ " seconds. Maximum allowed wait time is " ++ toString m ++ " seconds"
  | .emptyNodeName => "Node name cannot be empty"
  | .retryLimitExceeded a msg =>
      "Execution retry limit reached after " ++ toString a ++ " attempts: "
        ++ msg

/-- The constructor `Node::new(name: Option<&str>)`: substitutes `"default"` for a missing name, rejects an empty resolved
name, and otherwise builds a node with no successor, zero retries, zero
wait. -/
def Node.new (name : Option String) : Except NodeError Node :=
  let name := name.getD "default"
  if name.isEmpty then
    .error .emptyNodeName
  else
    .ok (.mk name none 0 0)

/-- The builder `Node::with_next`: replaces `next` with the given
successor. -/
def Node.with_next : Node → Node → Node
  | .mk name _ r w, node => .mk name (some node) r w

/-- The builder `Node::with_retries`: rejects `retries > MAX_RETRIES`,
otherwise sets `max_retries`. -/
def Node.with_retries : Node → Nat → Except NodeError Node
  | .mk name nx _ w, retries =>
    if retries > MAX_RETRIES then
      .error (.invalidRetryCount retries MAX_RETRIES)
    else
      .ok (.mk name nx retries w)

/-- The builder `Node::with_wait`: rejects `wait > MAX_WAIT_SECONDS`,
otherwise sets `wait`. -/
def Node.with_wait : Node → Nat → Except NodeError Node
  | .mk name nx r _, wait =>
    if wait > MAX_WAIT_SECONDS then
      .error (.invalidWaitTime wait MAX_WAIT_SECONDS)
    else
      .ok (.mk name nx r wait)

/-- The accessor `Node::next(&self)`: read-only access to the
successor. -/
def Node.next (n : Node) : Option Node :=
  n.nextField

/-- Observable side effects of one `exec` run: an invocation of the
internal work function, or a blocking sleep of the given number of
seconds. -/
inductive ExecEvent : Type where
  | invoke
  | sleep (secs : Nat)
deriving DecidableEq

/-- Whether an event is an invocation of the internal work. -/
def isInvoke : ExecEvent → Bool
  | .invoke => true
  | .sleep _ => false

/-- Whether an event is a sleep. -/
def isSleep : ExecEvent → Bool
  | .invoke => false
  | .sleep _ => true

/-- The `while attempts <= self.max_retries` loop of `Node::exec`,
parameterised (per the spec's contract for pluggable internal logic) by
the result of the work function on each attempt index.  Returns the
result of the loop together with the trace of work invocations and
sleeps, in order.  `attempts` is the loop counter; the source's
`execute_logic()` call is `work attempts`. -/
def execAux (work : Nat → Except NodeError Unit) (maxRetries wait attempts : Nat) :
    Except NodeError Unit × List ExecEvent :=
  if attempts ≤ maxRetries then
    match work attempts with
    | .ok _ => (.ok (), [.invoke])
    | .error e =>
      if h : attempts < maxRetries then
        let rest := execAux work maxRetries wait (attempts + 1)
        (rest.1, .invoke :: .sleep wait :: rest.2)
      else
        (.error (.retryLimitExceeded attempts e.toMessage), [.invoke])
  else
    (.ok (), [])
termination_by maxRetries + 1 - attempts
decreasing_by omega

/-- The entry point `Node::exec`: runs the retry loop starting from
`attempts = 0` with the node's configured bound and delay. -/
def Node.exec (work : Nat → Except NodeError Unit) (n : Node) :
    Except NodeError Unit × List ExecEvent :=
  execAux work n.max_retries n.wait 0

/-- The source's `execute_logic`: a placeholder that always succeeds. -/
def execute_logic (_ : Nat) : Except NodeError Unit :=
  .ok ()

/-- The trace of an all-failing run with `m` retries and delay `w`:
`m + 1` invocations with a sleep of `w` seconds between each consecutive
pair. -/
def failTrace : Nat → Nat → List ExecEvent
  | 0, _ => [.invoke]
  | m + 1, w => .invoke :: .sleep w :: failTrace m w

/-- Nodes obtainable from `Node::new` followed by any sequence of
successful builder calls (`with_next`, `with_retries`, `with_wait`). -/
inductive Reachable : Node → Prop where
  | new (nm : Option String) (n : Node) (h : Node.new nm = .ok n) :
      Reachable n
  | withNext (n s : Node) (h : Reachable n) : Reachable (n.with_next s)
  | withRetries (n m : Node) (r : Nat) (h : Reachable n)
      (hm : n.with_retries r = .ok m) : Reachable m
  | withWait (n m : Node) (w : Nat) (h : Reachable n)
      (hm : n.with_wait w = .ok m) : Reachable m

/-! ## Builder and constructor claims -/

/-- C10: the fixed default name substituted by `create` is exactly the
string `"default"`, so `create(None)` produces a Node identical to
`create(Some("default"))`. -/
theorem new_default_name :
    Node.new none = .ok (.mk "default" none 0 0) ∧
    Node.new none = Node.new (some "default") := by
  constructor
  · rfl
  · rfl

/-- C3: for every non-empty string `s`, `create(Some(s))` succeeds with a
Node named exactly `s`, no successor, zero retries, zero wait;
`create(None)` succeeds with the default name; `create(Some(""))` fails
with `EmptyNodeName`. -/
theorem new_spec (s : String) (hs : s ≠ "") :
    Node.new (some s) = .ok (.mk s none 0 0) ∧
    Node.new none = .ok (.mk "default" none 0 0) ∧
    Node.new (some "") = .error .emptyNodeName := by
  refine ⟨?_, ?_, ?_⟩
  · simp [Node.new, String.isEmpty_iff, hs]
  · rfl
  · rfl

/-- Witness for C3 at `s = "fetch"`. -/
theorem new_spec_witness :
    Node.new (some "fetch") = .ok (.mk "fetch" none 0 0) ∧
    Node.new none = .ok (.mk "default" none 0 0) ∧
    Node.new (some "") = .error .emptyNodeName :=
  new_spec "fetch" (by decide)

/-- C5: for `r ≤ 10`, `withRetries` succeeds, sets `max_retries = r` and
leaves every other field unchanged; for `r > 10` it fails with
`InvalidRetryCount(r, 10)`. -/
theorem with_retries_spec (n : Node) (r : Nat) :
    (r ≤ 10 →
      ∃ m, n.with_retries r = .ok m ∧ m.max_retries = r ∧
        m.name = n.name ∧ m.nextField = n.nextField ∧ m.wait = n.wait) ∧
    (r > 10 → n.with_retries r = .error (.invalidRetryCount r 10)) := by
  cases n with
  | mk name nx mr w =>
    constructor
    · intro h
      refine ⟨.mk name nx r w, ?_, rfl, rfl, rfl, rfl⟩
      simp [Node.with_retries, MAX_RETRIES, Nat.not_lt.mpr h]
    · intro h
      simp [Node.with_retries, MAX_RETRIES, h]

/-- Witness for C5 at a concrete node, `r = 3` and `r = 11`. -/
theorem with_retries_spec_witness :
    (∃ m, (Node.mk "a" none 0 0).with_retries 3 = .ok m ∧ m.max_retries = 3 ∧
      m.name = (Node.mk "a" none 0 0).name ∧
      m.nextField = (Node.mk "a" none 0 0).nextField ∧
      m.wait = (Node.mk "a" none 0 0).wait) ∧
    (Node.mk "a" none 0 0).with_retries 11 =
      .error (.invalidRetryCount 11 10) :=
  ⟨(with_retries_spec (.mk "a" none 0 0) 3).1 (by decide),
   (with_retries_spec (.mk "a" none 0 0) 11).2 (by decide)⟩

/-- C6: for `w ≤ 60`, `withWait` succeeds, sets `wait = w` and leaves
every other field unchanged; for `w > 60` it fails with
`InvalidWaitTime(w, 60)`. -/
theorem with_wait_spec (n : Node) (w : Nat) :
    (w ≤ 60 →
      ∃ m, n.with_wait w = .ok m ∧ m.wait = w ∧
        m.name = n.name ∧ m.nextField = n.nextField ∧
        m.max_retries = n.max_retries) ∧
    (w > 60 → n.with_wait w = .error (.invalidWaitTime w 60)) := by
  cases n with
  | mk name nx mr wt =>
    constructor
    · intro h
      refine ⟨.mk name nx mr w, ?_, rfl, rfl, rfl, rfl⟩
      simp [Node.with_wait, MAX_WAIT_SECONDS, Nat.not_lt.mpr h]
    · intro h
      simp [Node.with_wait, MAX_WAIT_SECONDS, h]

/-- Witness for C6 at a concrete node, `w = 60` and `w = 61`. -/
theorem with_wait_spec_witness :
    (∃ m, (Node.mk "a" none 0 0).with_wait 60 = .ok m ∧ m.wait = 60 ∧
      m.name = (Node.mk "a" none 0 0).name ∧
      m.nextField = (Node.mk "a" none 0 0).nextField ∧
      m.max_retries = (Node.mk "a" none 0 0).max_retries) ∧
    (Node.mk "a" none 0 0).with_wait 61 = .error (.invalidWaitTime 61 60) :=
  ⟨(with_wait_spec (.mk "a" none 0 0) 60).1 (by decide),
   (with_wait_spec (.mk "a" none 0 0) 61).2 (by decide)⟩

/-- C8: `attachSuccessor` followed by `getSuccessor` returns the attached
successor (replacing any previous one), and a freshly created Node has no
successor. -/
theorem with_next_next_spec (n s : Node) :
    (n.with_next s).next = some s ∧
    (∀ nm m, Node.new nm = .ok m → m.next = none) := by
  constructor
  · cases n; rfl
  · intro nm m h
    cases nm with
    | none =>
      have h0 : Node.new none = .ok (.mk "default" none 0 0) := rfl
      rw [h0] at h
      cases h
      rfl
    | some s' =>
      by_cases hs : s'.isEmpty <;> simp [Node.new, hs] at h
      simp [← h, Node.next, Node.nextField]

/-- Witness for C8 at concrete nodes. -/
theorem with_next_next_spec_witness :
    ((Node.mk "a" none 0 0).with_next (.mk "b" none 0 0)).next =
      some (.mk "b" none 0 0) ∧
    (Node.mk "default" none 0 0).next = none :=
  ⟨(with_next_next_spec (.mk "a" none 0 0) (.mk "b" none 0 0)).1,
   (with_next_next_spec (.mk "a" none 0 0) (.mk "b" none 0 0)).2 none
     (.mk "default" none 0 0) rfl⟩

/-- C9: for in-range `r` and `w`, `withRetries` then `withWait` yields
exactly the same configuration as `withWait` then `withRetries`. -/
theorem builder_commute (n : Node) (r w : Nat) (hr : r ≤ 10) (hw : w ≤ 60) :
    (n.with_retries r).bind (fun m => m.with_wait w) =
    (n.with_wait w).bind (fun m => m.with_retries r) := by
  cases n with
  | mk name nx mr wt =>
    simp [Node.with_retries, Node.with_wait, MAX_RETRIES, MAX_WAIT_SECONDS,
      Nat.not_lt.mpr hr, Nat.not_lt.mpr hw, Except.bind]

/-- Witness for C9 at a concrete node, `r = 2`, `w = 5`. -/
theorem builder_commute_witness :
    ((Node.mk "a" none 0 0).with_retries 2).bind (fun m => m.with_wait 5) =
    ((Node.mk "a" none 0 0).with_wait 5).bind (fun m => m.with_retries 2) :=
  builder_commute (.mk "a" none 0 0) 2 5 (by decide) (by decide)

/-! ## Invariant claim -/

/-- A node produced by `Node::new` has a non-empty name, zero retries and
zero wait. -/
theorem new_ok_fields (nm : Option String) (n : Node)
    (h : Node.new nm = .ok n) :
    n.name ≠ "" ∧ n.max_retries = 0 ∧ n.wait = 0 := by
  cases nm with
  | none =>
    have h0 : Node.new none = .ok (.mk "default" none 0 0) := rfl
    rw [h0] at h
    cases h
    exact ⟨by decide, rfl, rfl⟩
  | some s =>
    by_cases hs : s.isEmpty <;> simp [Node.new, hs] at h
    have hs' : s ≠ "" := fun he => by
      rw [he] at hs
      exact absurd hs (by decide)
    subst h
    exact ⟨hs', rfl, rfl⟩

/-- The builder `with_next` changes only the `next` field. -/
theorem with_next_fields (n s : Node) :
    (n.with_next s).name = n.name ∧
    (n.with_next s).max_retries = n.max_retries ∧
    (n.with_next s).wait = n.wait := by
  cases n
  exact ⟨rfl, rfl, rfl⟩

/-- A successful `with_retries` sets `max_retries` to an in-range value
and changes nothing else. -/
theorem with_retries_ok_fields (n m : Node) (r : Nat)
    (h : n.with_retries r = .ok m) :
    m.name = n.name ∧ m.max_retries = r ∧ r ≤ 10 ∧ m.wait = n.wait := by
  cases n with
  | mk name nx mr w =>
    by_cases hr : r > MAX_RETRIES <;> simp [Node.with_retries, hr] at h
    subst h
    exact ⟨rfl, rfl, by simpa [MAX_RETRIES] using hr, rfl⟩

/-- A successful `with_wait` sets `wait` to an in-range value and changes
nothing else. -/
theorem with_wait_ok_fields (n m : Node) (w : Nat)
    (h : n.with_wait w = .ok m) :
    m.name = n.name ∧ m.max_retries = n.max_retries ∧ w ≤ 60 ∧
      m.wait = w := by
  cases n with
  | mk name nx mr wt =>
    by_cases hw : w > MAX_WAIT_SECONDS <;> simp [Node.with_wait, hw] at h
    subst h
    exact ⟨rfl, rfl, by simpa [MAX_WAIT_SECONDS] using hw, rfl⟩

/-- An out-of-range retry count is rejected, for every node. -/
theorem with_retries_reject (n : Node) (r : Nat) (h : r > 10) :
    n.with_retries r = .error (.invalidRetryCount r 10) := by
  cases n
  simp [Node.with_retries, MAX_RETRIES, h]

/-- An out-of-range wait is rejected, for every node. -/
theorem with_wait_reject (n : Node) (w : Nat) (h : w > 60) :
    n.with_wait w = .error (.invalidWaitTime w 60) := by
  cases n
  simp [Node.with_wait, MAX_WAIT_SECONDS, h]

/-- C4: every node reachable from `create` by successful builder calls
has a non-empty name, `max_retries ≤ 10` and `wait ≤ 60`; out-of-range
configuration values are rejected with an error, never clamped. -/
theorem reachable_invariant (n : Node) (h : Reachable n) :
    (n.name ≠ "" ∧ n.max_retries ≤ 10 ∧ n.wait ≤ 60) ∧
    (∀ r, r > 10 → n.with_retries r = .error (.invalidRetryCount r 10)) ∧
    (∀ w, w > 60 → n.with_wait w = .error (.invalidWaitTime w 60)) := by
  refine ⟨?_, fun r hr => with_retries_reject n r hr,
    fun w hw => with_wait_reject n w hw⟩
  induction h with
  | new nm m hm =>
    obtain ⟨h1, h2, h3⟩ := new_ok_fields nm m hm
    exact ⟨h1, by omega, by omega⟩
  | withNext m s hm ih =>
    obtain ⟨f1, f2, f3⟩ := with_next_fields m s
    exact ⟨f1 ▸ ih.1, f2 ▸ ih.2.1, f3 ▸ ih.2.2⟩
  | withRetries m m' r hm hr ih =>
    obtain ⟨f1, f2, f3, f4⟩ := with_retries_ok_fields m m' r hr
    exact ⟨f1 ▸ ih.1, by omega, f4 ▸ ih.2.2⟩
  | withWait m m' w hm hw ih =>
    obtain ⟨f1, f2, f3, f4⟩ := with_wait_ok_fields m m' w hw
    exact ⟨f1 ▸ ih.1, f2 ▸ ih.2.1, by omega⟩

/-- Witness for C4 at a concretely built node: `create(Some("fetch"))`
then `withRetries(2)` then `withWait(5)`. -/
theorem reachable_invariant_witness :
    ((Node.mk "fetch" none 2 5).name ≠ "" ∧
      (Node.mk "fetch" none 2 5).max_retries ≤ 10 ∧
      (Node.mk "fetch" none 2 5).wait ≤ 60) ∧
    (∀ r, r > 10 → (Node.mk "fetch" none 2 5).with_retries r =
      .error (.invalidRetryCount r 10)) ∧
    (∀ w, w > 60 → (Node.mk "fetch" none 2 5).with_wait w =
      .error (.invalidWaitTime w 60)) :=
  reachable_invariant (.mk "fetch" none 2 5)
    (.withWait (.mk "fetch" none 2 0) (.mk "fetch" none 2 5) 5
      (.withRetries (.mk "fetch" none 0 0) (.mk "fetch" none 2 0) 2
        (.new (some "fetch") (.mk "fetch" none 0 0) rfl) rfl) rfl)

/-! ## Execution claims -/

/-- C2: if the work function succeeds on its first invocation, `exec`
returns success with exactly one invocation and no sleep, regardless of
`max_retries`. -/
theorem exec_first_success (n : Node) (work : Nat → Except NodeError Unit)
    (h : work 0 = .ok ()) :
    n.exec work = (.ok (), [.invoke]) ∧
    (((n.exec work).2.filter isInvoke).length = 1 ∧
      (n.exec work).2.filter isSleep = []) := by
  have h1 : n.exec work = (.ok (), [.invoke]) := by
    rw [Node.exec, execAux]
    simp [h]
  exact ⟨h1, by rw [h1]; rfl, by rw [h1]; rfl⟩

/-- Witness for C2: the source's always-succeeding `execute_logic` on a
node with `max_retries = 10`, `wait = 60`. -/
theorem exec_first_success_witness :
    (Node.mk "default" none 10 60).exec execute_logic =
      (.ok (), [.invoke]) ∧
    ((((Node.mk "default" none 10 60).exec execute_logic).2.filter
        isInvoke).length = 1 ∧
      ((Node.mk "default" none 10 60).exec execute_logic).2.filter
        isSleep = []) :=
  exec_first_success (.mk "default" none 10 60) execute_logic rfl

/-- If the work function fails on every attempt, the loop starting at
`attempts` (with `attempts ≤ maxRetries`) returns `RetryLimitExceeded`
carrying `maxRetries` and the message of the last failure, with the
alternating invoke/sleep trace of the remaining attempts. -/
theorem execAux_all_fail (work : Nat → Except NodeError Unit)
    (f : Nat → NodeError) (hw : ∀ k, work k = .error (f k))
    (maxRetries wait : Nat) :
    ∀ d attempts, maxRetries - attempts = d → attempts ≤ maxRetries →
      execAux work maxRetries wait attempts =
        (.error (.retryLimitExceeded maxRetries (f maxRetries).toMessage),
         failTrace d wait) := by
  intro d
  induction d with
  | zero =>
    intro attempts hd hle
    have ha : attempts = maxRetries := by omega
    subst ha
    rw [execAux]
    simp [hw, failTrace]
  | succ d ih =>
    intro attempts hd hle
    have hlt : attempts < maxRetries := by omega
    rw [execAux]
    simp only [hle, if_true, hw, hlt, dif_pos, if_pos]
    rw [ih (attempts + 1) (by omega) (by omega)]
    simp [failTrace]

/-- Number of invocations in an all-failing trace: `m + 1`. -/
theorem failTrace_invoke_length (m w : Nat) :
    ((failTrace m w).filter isInvoke).length = m + 1 := by
  induction m with
  | zero => rfl
  | succ m ih => simp [failTrace, isInvoke, isSleep, List.filter] at ih ⊢; omega

/-- Sleeps in an all-failing trace: exactly `m`, each of `w` seconds. -/
theorem failTrace_sleeps (m w : Nat) :
    (failTrace m w).filter isSleep = List.replicate m (.sleep w) := by
  induction m with
  | zero => rfl
  | succ m ih => simp [failTrace, isInvoke, isSleep, List.filter,
      List.replicate] at ih ⊢; exact ih

/-- C1: if the work function fails on every invocation (`f k` being the
failure of attempt `k`), `exec` produces the trace of `max_retries + 1`
invocations with a sleep of `wait` seconds between each consecutive pair
(so exactly `max_retries` sleeps), and returns `RetryLimitExceeded` whose
`attempts` field is `max_retries` and whose message is the rendering of
the last attempt's failure. -/
theorem exec_all_fail (n : Node) (work : Nat → Except NodeError Unit)
    (f : Nat → NodeError) (hw : ∀ k, work k = .error (f k)) :
    n.exec work =
      (.error (.retryLimitExceeded n.max_retries
        (f n.max_retries).toMessage),
       failTrace n.max_retries n.wait) ∧
    (((n.exec work).2.filter isInvoke).length = n.max_retries + 1 ∧
      (n.exec work).2.filter isSleep =
        List.replicate n.max_retries (.sleep n.wait)) := by
  have h1 := execAux_all_fail work f hw n.max_retries n.wait n.max_retries 0
    (by omega) (by omega)
  rw [Node.exec]
  rw [h1]
  exact ⟨rfl, failTrace_invoke_length n.max_retries n.wait,
    failTrace_sleeps n.max_retries n.wait⟩

/-- Witness for C1: the spec's scenario node (`max_retries = 2`,
`wait = 0`) against an always-failing work function. -/
theorem exec_all_fail_witness :
    (Node.mk "fetch" none 2 0).exec
        (fun _ => .error (.executionError "boom")) =
      (.error (.retryLimitExceeded 2
        (NodeError.executionError "boom").toMessage),
       failTrace 2 0) ∧
    ((((Node.mk "fetch" none 2 0).exec
        (fun _ => .error (.executionError "boom"))).2.filter
          isInvoke).length = 2 + 1 ∧
      ((Node.mk "fetch" none 2 0).exec
        (fun _ => .error (.executionError "boom"))).2.filter isSleep =
        List.replicate 2 (.sleep 0)) :=
  exec_all_fail (.mk "fetch" none 2 0)
    (fun _ => .error (.executionError "boom"))
    (fun _ => .executionError "boom") (fun _ => rfl)

/-- Every error result of the loop, from any starting counter, wraps the
final attempt's own error: it is `retryLimitExceeded` carrying
`maxRetries` and the rendering of the error that the work function
produced on attempt `maxRetries`. -/
theorem execAux_error_shape (work : Nat → Except NodeError Unit)
    (maxRetries wait : Nat) :
    ∀ d attempts e, maxRetries + 1 - attempts ≤ d →
      (execAux work maxRetries wait attempts).1 = .error e →
      ∃ e0, work maxRetries = .error e0 ∧
        e = .retryLimitExceeded maxRetries e0.toMessage := by
  intro d
  induction d with
  | zero =>
    intro attempts e hd h
    have hgt : ¬ attempts ≤ maxRetries := by omega
    rw [execAux] at h
    simp [hgt] at h
  | succ d ih =>
    intro attempts e hd h
    rw [execAux] at h
    by_cases hle : attempts ≤ maxRetries
    · simp only [hle, if_true] at h
      cases hwk : work attempts with
      | ok u => rw [hwk] at h; simp at h
      | error e0 =>
        rw [hwk] at h
        by_cases hlt : attempts < maxRetries
        · simp only [hlt, dif_pos] at h
          exact ih (attempts + 1) e (by omega) h
        · have ha : attempts = maxRetries := by omega
          simp only [hlt, dif_neg, not_false_iff] at h
          simp at h
          subst ha
          exact ⟨e0, hwk, h.symm⟩
    · simp [hle] at h

/-- C7: every error `exec` returns to its caller is a
`RetryLimitExceeded`; an attempt's own error is never surfaced
directly, only wrapped, and the wrapped message is exactly the rendering
of the failing attempt's error. -/
theorem exec_error_wrapped (n : Node) (work : Nat → Except NodeError Unit)
    (e : NodeError) (h : (n.exec work).1 = .error e) :
    ∃ e0, work n.max_retries = .error e0 ∧
      e = .retryLimitExceeded n.max_retries e0.toMessage :=
  execAux_error_shape work n.max_retries n.wait (n.max_retries + 1) 0 e
    (by omega) h

/-- Witness for C7 at a concrete failing run. -/
theorem exec_error_wrapped_witness :
    ∃ e0, (fun _ : Nat => Except.error (ε := NodeError)
        (NodeError.executionError "x") (α := Unit)) 0 = .error e0 ∧
      NodeError.retryLimitExceeded 0
          (NodeError.executionError "x").toMessage =
        .retryLimitExceeded 0 e0.toMessage :=
  exec_error_wrapped (.mk "a" none 0 0)
    (fun _ => .error (.executionError "x"))
    (.retryLimitExceeded 0 (NodeError.executionError "x").toMessage)
    (by simp [Node.exec, execAux, Node.max_retries, Node.wait])
